import Mathlib

/-!
Shallow embedding of the solo-leveling habit-tracker backend
(`src/unnamed/part_000`, a FastAPI application) and proofs about its
rule engine, lifecycle manager and reporters.

Conventions of the embedding:
* SQL dates are `Nat`; `CURRENT_DATE` is the explicit `today` argument.
* A `datetime.time` column is a `Time` record (hour, minute).
* A column that may hold a JSON array or NULL is `Option (List String)`;
  `none` models a value for which Python's `isinstance(x, list)` is false.
* Each endpoint is a pure function of the rows its SQL queries fetch; the
  connection-failure early-return (`conn` being `None`) is a collaborator
  concern outside the embedding.  A single-commit transaction is one pure
  state transition, so readers of the returned state observe all of its
  writes or none of them.
-/

set_option maxHeartbeats 1000000

namespace SoloLeveling

/-- Hour/minute of a `datetime.time` value as stored in the database. -/
structure Time where
  hour : Nat
  minute : Nat
deriving Repr, DecidableEq

/-- One row of `daily_routines` as fetched by `adjust_habits`
(columns wake_up_time, sleep_time, meal_times, energy_level, stress_level,
bad_habits, workout). -/
structure Routine where
  wake_up_time : Time
  sleep_time : Time
  meal_times : Option (List String)
  energy_level : Int
  stress_level : Int
  bad_habits : Option (List String)
  workout : String
deriving Repr, DecidableEq

/-- Python's `f"{n:02d}"`: decimal rendering padded to two digits. -/
def format2 (n : Nat) : String :=
  if n < 10 then "0" ++ toString n else toString n

/-- Python's `f"{h:02d}:{m:02d}"` time formatting used by the rule engine. -/
def fmtTime (h m : Nat) : String := format2 h ++ ":" ++ format2 m

/-- Rendering of a `Time` value when passed as a query parameter. -/
def timeStr (t : Time) : String := fmtTime t.hour t.minute

/-- Python's `"...".split(":")` on the character list of a string. -/
def splitOnColon (l : List Char) : List (List Char) :=
  match l with
  | [] => [[]]
  | c :: rest =>
      if c = ':' then [] :: splitOnColon rest
      else
        match splitOnColon rest with
        | [] => [[c]]
        | x :: xs => (c :: x) :: xs

/-- Python's `int` on a decimal digit string, e.g. `int("07") = 7`. -/
def natOfDigits (l : List Char) : Nat :=
  l.foldl (fun n c => n * 10 + (c.toNat - 48)) 0

/-- Python's `h, m = map(int, time.split(":"))` on an `"HH:MM"` string.
Malformed strings are out of scope per the spec (Python would raise). -/
def parseHM (s : String) : Nat × Nat :=
  match splitOnColon s.data with
  | [h, m] => (natOfDigits h, natOfDigits m)
  | _ => (0, 0)

/-- The meal-retiming transformation of one meal time:
`f"{max(6, h-1):02d}:{m:02d}"` (part_000 lines 93-94). -/
def mealNew (t : String) : String :=
  fmtTime (max 6 ((parseHM t).1 - 1)) (parseHM t).2

/-- Suggested change of a proposal: a single time string for the wake/sleep
rules, a list of strings for the meal and bad-habit rules. -/
inductive Suggested where
  | str (s : String)
  | list (l : List String)
deriving Repr, DecidableEq

/-- One element of the `adjustments` list returned by `adjust_habits`. -/
structure Proposal where
  habit : String
  suggested_change : Suggested
deriving Repr, DecidableEq

/-- The column values of one `INSERT INTO habit_adjustments` issued by the
rule engine (the serial id is generated by the database, not by the code). -/
structure AdjInsert where
  user_id : Nat
  applied_on : Nat
  current_value : String
  next_suggested_value : String
  reason : String
  status : String
  habit : String
deriving Repr, DecidableEq

/-- The apostrophe character used by Python `str` on lists and in f-strings. -/
def pyQuote : String := String.singleton (Char.ofNat 39)

/-- Python's `str` on a list of strings, e.g. `str(["a"])`. -/
def pyStrList (l : List String) : String :=
  "[" ++ String.intercalate ", " (l.map (fun s => pyQuote ++ s ++ pyQuote)) ++ "]"

/-- Wake-up rule (part_000 lines 71-78): fires when `"wake_up_time"` is not
pending and the sleep hour exceeds 1; proposes `max(6, wakeHour-1)` with the
wake minute and inserts one pending row with reason "Gradual wake-up shift". -/
def wakeRule (uid today : Nat) (existing : List String) (r : Routine) :
    List Proposal × List AdjInsert :=
  if ¬ "wake_up_time" ∈ existing ∧ 1 < r.sleep_time.hour then
    ([{ habit := "wake_up_time",
        suggested_change :=
          Suggested.str (fmtTime (max 6 (r.wake_up_time.hour - 1)) r.wake_up_time.minute) }],
     [{ user_id := uid, applied_on := today, current_value := timeStr r.wake_up_time,
        next_suggested_value := fmtTime (max 6 (r.wake_up_time.hour - 1)) r.wake_up_time.minute,
        reason := "Gradual wake-up shift", status := "pending", habit := "wake_up_time" }])
  else ([], [])

/-- Sleep rule (part_000 lines 80-87): fires when `"sleep_time"` is not
pending and the sleep hour exceeds 1; proposes `max(22, sleepHour-1)` with the
sleep minute and inserts one pending row with reason "Improve sleep quality". -/
def sleepRule (uid today : Nat) (existing : List String) (r : Routine) :
    List Proposal × List AdjInsert :=
  if ¬ "sleep_time" ∈ existing ∧ 1 < r.sleep_time.hour then
    ([{ habit := "sleep_time",
        suggested_change :=
          Suggested.str (fmtTime (max 22 (r.sleep_time.hour - 1)) r.sleep_time.minute) }],
     [{ user_id := uid, applied_on := today, current_value := timeStr r.sleep_time,
        next_suggested_value := fmtTime (max 22 (r.sleep_time.hour - 1)) r.sleep_time.minute,
        reason := "Improve sleep quality", status := "pending", habit := "sleep_time" }])
  else ([], [])

/-- The pending row inserted for one meal time (part_000 lines 97-100). -/
def mealRow (uid today : Nat) (t : String) : AdjInsert :=
  { user_id := uid, applied_on := today, current_value := t,
    next_suggested_value := mealNew t, reason := "Optimize meal timing",
    status := "pending", habit := "meal_times" }

/-- Meal rule (part_000 lines 89-102): fires when `"meal_times"` is not
pending and the column is a list (note: the code does NOT test the list for
non-emptiness, unlike the bad-habit rule); inserts one pending row per meal
time and appends one aggregate proposal with the whole transformed list. -/
def mealRule (uid today : Nat) (existing : List String) (r : Routine) :
    List Proposal × List AdjInsert :=
  match r.meal_times with
  | some ts =>
      if ¬ "meal_times" ∈ existing then
        ([{ habit := "meal_times", suggested_change := Suggested.list (ts.map mealNew) }],
         ts.map (mealRow uid today))
      else ([], [])
  | none => ([], [])

/-- Bad-habit rule (part_000 lines 104-111): fires when `"bad_habits"` is not
pending and the column is a non-empty list (Python truthiness of `bad_habits`);
drops the last element and inserts one pending row whose stored values are
Python `str` renderings of the two lists. -/
def badRule (uid today : Nat) (existing : List String) (r : Routine) :
    List Proposal × List AdjInsert :=
  match r.bad_habits with
  | some bh =>
      if ¬ "bad_habits" ∈ existing ∧ ¬ bh = [] then
        ([{ habit := "bad_habits", suggested_change := Suggested.list bh.dropLast }],
         [{ user_id := uid, applied_on := today, current_value := pyStrList bh,
            next_suggested_value := pyStrList bh.dropLast, reason := "Reduce negative habits",
            status := "pending", habit := "bad_habits" }])
      else ([], [])
  | none => ([], [])

/-- Result of `adjust_habits`: either the "❌ No routine data found" message or
the `adjustments` list. -/
inductive AdjustResult where
  | noData
  | adjustments (props : List Proposal)
deriving Repr, DecidableEq

/-- The `adjust_habits` endpoint (part_000 lines 43-117) as a function of the
pending habit-name snapshot (`existing_habits`) and the latest routine row
(`none` when the user has no routine).  Every rule condition reads only that
snapshot and the routine, so the proposals and inserted rows are the in-order
concatenation of the four rules' outputs. -/
def adjustHabits (uid today : Nat) (existing : List String) (routine : Option Routine) :
    AdjustResult × List AdjInsert :=
  match routine with
  | none => (AdjustResult.noData, [])
  | some r =>
      let w := wakeRule uid today existing r
      let s := sleepRule uid today existing r
      let m := mealRule uid today existing r
      let b := badRule uid today existing r
      (AdjustResult.adjustments (w.1 ++ (s.1 ++ (m.1 ++ b.1))), w.2 ++ (s.2 ++ (m.2 ++ b.2)))

/-- One stored row of `habit_adjustments` (with its serial primary key). -/
structure Adjustment where
  adjustment_id : Nat
  user_id : Nat
  applied_on : Nat
  current_value : String
  next_suggested_value : String
  reason : String
  status : String
  habit : String
deriving Repr, DecidableEq

/-- One stored row of `habit_history`. -/
structure HistoryEntry where
  user_id : Nat
  habit : String
  previous_value : String
  new_value : String
  status : String
  date_applied : Nat
deriving Repr, DecidableEq

/-- The two tables touched by `update_habit`. -/
structure DB where
  habit_adjustments : List Adjustment
  habit_history : List HistoryEntry
deriving Repr, DecidableEq

/-- Result of `update_habit`: HTTP 400 for a bad status, the "no habit
adjustment found" error object, or the success message. -/
inductive UpdateResult where
  | invalidStatus
  | notFound
  | ok (message : String)
deriving Repr, DecidableEq

/-- The `update_habit` endpoint (part_000 lines 123-165).  The status is
validated before any database access; the row is fetched by id (`fetchone`
returns the first matching row; ids are unique in practice); on success one
history row is inserted and the pending row deleted, under a single commit,
so the returned state is the atomic result of both writes. -/
def updateHabit (adjustment_id : Nat) (status : String) (today : Nat) (db : DB) :
    UpdateResult × DB :=
  if ¬ status = "accepted" ∧ ¬ status = "rejected" then
    (UpdateResult.invalidStatus, db)
  else
    match (db.habit_adjustments.filter (fun a => a.adjustment_id == adjustment_id)).head? with
    | none => (UpdateResult.notFound, db)
    | some a =>
        let hist :=
          if status = "accepted" then
            db.habit_history ++
              [{ user_id := a.user_id, habit := a.habit, previous_value := a.current_value,
                 new_value := a.next_suggested_value, status := "accepted", date_applied := today }]
          else if status = "rejected" then
            db.habit_history ++
              [{ user_id := a.user_id, habit := a.habit, previous_value := a.current_value,
                 new_value := a.next_suggested_value, status := "rejected", date_applied := today }]
          else db.habit_history
        (UpdateResult.ok ("✅ Habit adjustment " ++ toString adjustment_id ++ " marked as "
            ++ status ++ " and moved to history."),
         { habit_adjustments :=
             db.habit_adjustments.filter (fun a => !(a.adjustment_id == adjustment_id)),
           habit_history := hist })

/-- One entry of a `habit_progress` bucket. -/
structure ProgressEntry where
  habit : String
  previous_value : String
  new_value : String
  date : String
deriving Repr, DecidableEq

/-- The three buckets of the `habit_progress` response. -/
structure ProgressData where
  accepted : List ProgressEntry
  pending : List ProgressEntry
  rejected : List ProgressEntry
deriving Repr, DecidableEq

/-- The response entry built from one `habit_adjustments` row
(part_000 lines 197-202; `str(applied_on)` renders the date). -/
def progressEntryOf (a : Adjustment) : ProgressEntry :=
  { habit := a.habit, previous_value := a.current_value,
    new_value := a.next_suggested_value, date := toString a.applied_on }

/-- The bucketing of one row (part_000 lines 204-209): accepted, else pending,
else the rejected catch-all. -/
def progressStep (pd : ProgressData) (a : Adjustment) : ProgressData :=
  if a.status = "accepted" then { pd with accepted := pd.accepted ++ [progressEntryOf a] }
  else if a.status = "pending" then { pd with pending := pd.pending ++ [progressEntryOf a] }
  else { pd with rejected := pd.rejected ++ [progressEntryOf a] }

/-- Result of `habit_progress`. -/
inductive ProgressResult where
  | noData
  | data (pd : ProgressData)
deriving Repr, DecidableEq

/-- The `habit_progress` endpoint (part_000 lines 168-211) as a function of the
user's `habit_adjustments` rows in the order fetched (applied_on ascending). -/
def habit_progress (rows : List Adjustment) : ProgressResult :=
  if rows.isEmpty then ProgressResult.noData
  else ProgressResult.data (rows.foldl progressStep ⟨[], [], []⟩)

/-- One row fetched by the `habit_projections` query
(habit, previous_value, new_value, date_applied; accepted rows only). -/
structure HistRow where
  habit : String
  prev : String
  new : String
  date : Nat
deriving Repr, DecidableEq

/-- One value of the Python `projections` dict. -/
structure ProjEntry where
  habit : String
  start : String
  current : String
  trend : List (Nat × String)
deriving Repr, DecidableEq

/-- The unconditional per-row update (part_000 lines 346-347): append to the
habit's trend and overwrite its current value. -/
def projUpd (row : HistRow) (e : ProjEntry) : ProjEntry :=
  if e.habit = row.habit then
    { e with trend := e.trend ++ [(row.date, row.new)], current := row.new }
  else e

/-- Processing of one history row (part_000 lines 342-347): initialise the
habit's dict entry on first sight, then apply the unconditional update.  The
Python dict is modelled as an insertion-ordered association list. -/
def projStep (acc : List ProjEntry) (row : HistRow) : List ProjEntry :=
  let acc1 :=
    if acc.any (fun e => e.habit == row.habit) then acc
    else acc ++ [{ habit := row.habit, start := row.prev, current := row.new, trend := [] }]
  acc1.map (projUpd row)

/-- The `projections` dict after the whole loop, in insertion order. -/
def projEntries (rows : List HistRow) : List ProjEntry := rows.foldl projStep []

/-- The sentence emitted per habit (part_000 lines 352-353). -/
def projSentence (habit start current : String) : String :=
  "📈 If you continue, your " ++ habit ++ " could improve from " ++ pyQuote ++ start
    ++ pyQuote ++ " to " ++ pyQuote ++ current ++ pyQuote ++ " within a few months!"

/-- Result of `habit_projections`. -/
inductive ProjResult where
  | noData
  | insights (l : List String)
deriving Repr, DecidableEq

/-- The `habit_projections` endpoint (part_000 lines 320-355) as a function of
the fetched rows (the user's accepted history, date ascending). -/
def habit_projections (rows : List HistRow) : ProjResult :=
  if rows.isEmpty then ProjResult.noData
  else ProjResult.insights ((projEntries rows).map (fun e => projSentence e.habit e.start e.current))

/-- Proof device: the effect of `projStep` on the single dict slot of one
habit (the projections loop keeps at most one entry per habit). -/
def projStepH (cur : List ProjEntry) (row : HistRow) : List ProjEntry :=
  match cur with
  | [] => [{ habit := row.habit, start := row.prev, current := row.new, trend := [(row.date, row.new)] }]
  | e :: _ => [{ e with current := row.new, trend := e.trend ++ [(row.date, row.new)] }]

/-- Concrete routine whose meal-times column is the empty list. -/
def emptyMealRoutine : Routine :=
  { wake_up_time := ⟨7, 0⟩, sleep_time := ⟨0, 0⟩, meal_times := some [],
    energy_level := 0, stress_level := 0, bad_habits := none, workout := "" }

/-- Concrete routine with two meal times and nothing else adjustable. -/
def twoMealRoutine : Routine :=
  { wake_up_time := ⟨7, 0⟩, sleep_time := ⟨0, 0⟩, meal_times := some ["07:00", "12:30"],
    energy_level := 0, stress_level := 0, bad_habits := none, workout := "" }

/-- Concrete routine with sleep 03:15 and wake 07:30 (spec's clamp example). -/
def wakeSleepDemoRoutine : Routine :=
  { wake_up_time := ⟨7, 30⟩, sleep_time := ⟨3, 15⟩, meal_times := none,
    energy_level := 0, stress_level := 0, bad_habits := none, workout := "" }

/-- Concrete routine whose sleep hour is 1 (01:45). -/
def earlySleepRoutine : Routine :=
  { wake_up_time := ⟨7, 30⟩, sleep_time := ⟨1, 45⟩, meal_times := some ["07:00"],
    energy_level := 0, stress_level := 0, bad_habits := some ["late night snacking"], workout := "" }

/-- Concrete routine with the spec's three bad habits. -/
def badDemoRoutine : Routine :=
  { wake_up_time := ⟨7, 0⟩, sleep_time := ⟨0, 0⟩, meal_times := none,
    energy_level := 0, stress_level := 0, bad_habits := some ["coffee", "sugar", "lateNight"],
    workout := "" }

/-- Concrete routine with the spec's three meal times. -/
def mealDemoRoutine : Routine :=
  { wake_up_time := ⟨7, 0⟩, sleep_time := ⟨0, 0⟩, meal_times := some ["07:00", "12:30", "19:00"],
    energy_level := 0, stress_level := 0, bad_habits := none, workout := "" }

/-- Concrete pending adjustment row, id 5. -/
def demoAdjustment : Adjustment :=
  { adjustment_id := 5, user_id := 1, applied_on := 0, current_value := "07:30",
    next_suggested_value := "06:30", reason := "Gradual wake-up shift",
    status := "pending", habit := "wake_up_time" }

/-- Concrete database with one pending adjustment, id 5. -/
def demoDB : DB :=
  { habit_adjustments := [demoAdjustment], habit_history := [] }

/-- Concrete adjustment row carrying an unexpected status string. -/
def weirdAdjustment : Adjustment :=
  { adjustment_id := 9, user_id := 1, applied_on := 2, current_value := "07:30",
    next_suggested_value := "06:30", reason := "Gradual wake-up shift",
    status := "maybe", habit := "wake_up_time" }

/-- Concrete accepted-history rows, date ascending, two habits. -/
def demoHistRows : List HistRow :=
  [{ habit := "wake_up_time", prev := "07:30", new := "07:00", date := 1 },
   { habit := "sleep_time", prev := "23:30", new := "22:30", date := 2 },
   { habit := "wake_up_time", prev := "07:00", new := "06:00", date := 3 }]

/-! Helper lemmas about the four rules of the engine. -/

theorem wakeRule_inserts_habit (uid today : Nat) (existing : List String) (r : Routine) :
    ∀ a ∈ (wakeRule uid today existing r).2, a.habit = "wake_up_time" := by
  intro a ha
  unfold wakeRule at ha
  split at ha <;> simp_all

theorem sleepRule_inserts_habit (uid today : Nat) (existing : List String) (r : Routine) :
    ∀ a ∈ (sleepRule uid today existing r).2, a.habit = "sleep_time" := by
  intro a ha
  unfold sleepRule at ha
  split at ha <;> simp_all

theorem mealRule_some (uid today : Nat) (existing : List String) (r : Routine) (ts : List String)
    (hm : r.meal_times = some ts) :
    mealRule uid today existing r =
      if ¬ "meal_times" ∈ existing then
        ([{ habit := "meal_times", suggested_change := Suggested.list (ts.map mealNew) }],
         ts.map (mealRow uid today))
      else ([], []) := by
  unfold mealRule; rw [hm]

theorem mealRule_none (uid today : Nat) (existing : List String) (r : Routine)
    (hm : r.meal_times = none) : mealRule uid today existing r = ([], []) := by
  unfold mealRule; rw [hm]

theorem badRule_some (uid today : Nat) (existing : List String) (r : Routine) (bh : List String)
    (hm : r.bad_habits = some bh) :
    badRule uid today existing r =
      if ¬ "bad_habits" ∈ existing ∧ ¬ bh = [] then
        ([{ habit := "bad_habits", suggested_change := Suggested.list bh.dropLast }],
         [{ user_id := uid, applied_on := today, current_value := pyStrList bh,
            next_suggested_value := pyStrList bh.dropLast, reason := "Reduce negative habits",
            status := "pending", habit := "bad_habits" }])
      else ([], []) := by
  unfold badRule; rw [hm]

theorem badRule_none (uid today : Nat) (existing : List String) (r : Routine)
    (hm : r.bad_habits = none) : badRule uid today existing r = ([], []) := by
  unfold badRule; rw [hm]

theorem mealRule_inserts_habit (uid today : Nat) (existing : List String) (r : Routine) :
    ∀ a ∈ (mealRule uid today existing r).2, a.habit = "meal_times" := by
  intro a ha
  rcases hm : r.meal_times with _ | ts
  · rw [mealRule_none uid today existing r hm] at ha
    exact absurd ha (List.not_mem_nil a)
  · rw [mealRule_some uid today existing r ts hm] at ha
    split at ha
    · replace ha : a ∈ List.map (mealRow uid today) ts := ha
      obtain ⟨t, _, rfl⟩ := List.mem_map.mp ha
      rfl
    · exact absurd ha (List.not_mem_nil a)

theorem badRule_inserts_habit (uid today : Nat) (existing : List String) (r : Routine) :
    ∀ a ∈ (badRule uid today existing r).2, a.habit = "bad_habits" := by
  intro a ha
  rcases hm : r.bad_habits with _ | bh
  · rw [badRule_none uid today existing r hm] at ha
    exact absurd ha (List.not_mem_nil a)
  · rw [badRule_some uid today existing r bh hm] at ha
    split at ha <;> simp_all

theorem wakeRule_props_habit (uid today : Nat) (existing : List String) (r : Routine) :
    ∀ p ∈ (wakeRule uid today existing r).1, p.habit = "wake_up_time" := by
  intro p hp
  unfold wakeRule at hp
  split at hp <;> simp_all

theorem sleepRule_props_habit (uid today : Nat) (existing : List String) (r : Routine) :
    ∀ p ∈ (sleepRule uid today existing r).1, p.habit = "sleep_time" := by
  intro p hp
  unfold sleepRule at hp
  split at hp <;> simp_all

theorem mealRule_props_habit (uid today : Nat) (existing : List String) (r : Routine) :
    ∀ p ∈ (mealRule uid today existing r).1, p.habit = "meal_times" := by
  intro p hp
  rcases hm : r.meal_times with _ | ts
  · rw [mealRule_none uid today existing r hm] at hp
    exact absurd hp (List.not_mem_nil p)
  · rw [mealRule_some uid today existing r ts hm] at hp
    split at hp <;> simp_all

theorem badRule_props_habit (uid today : Nat) (existing : List String) (r : Routine) :
    ∀ p ∈ (badRule uid today existing r).1, p.habit = "bad_habits" := by
  intro p hp
  rcases hm : r.bad_habits with _ | bh
  · rw [badRule_none uid today existing r hm] at hp
    exact absurd hp (List.not_mem_nil p)
  · rw [badRule_some uid today existing r bh hm] at hp
    split at hp <;> simp_all

theorem wakeRule_skip (uid today : Nat) (existing : List String) (r : Routine)
    (h : "wake_up_time" ∈ existing) : wakeRule uid today existing r = ([], []) := by
  unfold wakeRule
  rw [if_neg (fun hc => hc.1 h)]

theorem sleepRule_skip (uid today : Nat) (existing : List String) (r : Routine)
    (h : "sleep_time" ∈ existing) : sleepRule uid today existing r = ([], []) := by
  unfold sleepRule
  rw [if_neg (fun hc => hc.1 h)]

theorem mealRule_skip (uid today : Nat) (existing : List String) (r : Routine)
    (h : "meal_times" ∈ existing) : mealRule uid today existing r = ([], []) := by
  rcases hm : r.meal_times with _ | ts
  · exact mealRule_none uid today existing r hm
  · rw [mealRule_some uid today existing r ts hm, if_neg (fun hc => hc h)]

theorem badRule_skip (uid today : Nat) (existing : List String) (r : Routine)
    (h : "bad_habits" ∈ existing) : badRule uid today existing r = ([], []) := by
  rcases hm : r.bad_habits with _ | bh
  · exact badRule_none uid today existing r hm
  · rw [badRule_some uid today existing r bh hm, if_neg (fun hc => hc.1 h)]

theorem wakeRule_inserts_len (uid today : Nat) (existing : List String) (r : Routine) :
    (wakeRule uid today existing r).2.length ≤ 1 := by
  unfold wakeRule; split <;> simp

theorem sleepRule_inserts_len (uid today : Nat) (existing : List String) (r : Routine) :
    (sleepRule uid today existing r).2.length ≤ 1 := by
  unfold sleepRule; split <;> simp

theorem badRule_inserts_len (uid today : Nat) (existing : List String) (r : Routine) :
    (badRule uid today existing r).2.length ≤ 1 := by
  rcases hm : r.bad_habits with _ | bh
  · rw [badRule_none uid today existing r hm]; simp
  · rw [badRule_some uid today existing r bh hm]; split <;> simp

theorem adjustHabits_some (uid today : Nat) (existing : List String) (r : Routine) :
    adjustHabits uid today existing (some r) =
      (AdjustResult.adjustments
        ((wakeRule uid today existing r).1 ++ ((sleepRule uid today existing r).1 ++
          ((mealRule uid today existing r).1 ++ (badRule uid today existing r).1))),
       (wakeRule uid today existing r).2 ++ ((sleepRule uid today existing r).2 ++
          ((mealRule uid today existing r).2 ++ (badRule uid today existing r).2))) := rfl

theorem count_eq_zero_of_all_ne {l : List String} {n : String}
    (h : ∀ x ∈ l, ¬ x = n) : l.count n = 0 :=
  List.count_eq_zero.mpr (fun hmem => (h n hmem) rfl)

theorem wake_names_count (uid today : Nat) (existing : List String) (r : Routine) (n : String) :
    (((wakeRule uid today existing r).2.map AdjInsert.habit).count n ≤ 1)
    ∧ (¬ n = "wake_up_time" →
        ((wakeRule uid today existing r).2.map AdjInsert.habit).count n = 0)
    ∧ (n ∈ existing →
        ((wakeRule uid today existing r).2.map AdjInsert.habit).count n = 0) := by
  have hz : ¬ n = "wake_up_time" →
      ((wakeRule uid today existing r).2.map AdjInsert.habit).count n = 0 := by
    intro hn
    apply count_eq_zero_of_all_ne
    intro x hx
    obtain ⟨a, ha, rfl⟩ := List.mem_map.mp hx
    rw [wakeRule_inserts_habit uid today existing r a ha]
    exact fun hh => hn hh.symm
  refine ⟨?_, hz, ?_⟩
  · calc ((wakeRule uid today existing r).2.map AdjInsert.habit).count n
        ≤ ((wakeRule uid today existing r).2.map AdjInsert.habit).length :=
          List.count_le_length _ _
    _ = (wakeRule uid today existing r).2.length := List.length_map _ _
    _ ≤ 1 := wakeRule_inserts_len uid today existing r
  · intro hmem
    by_cases hn : n = "wake_up_time"
    · subst hn
      rw [wakeRule_skip uid today existing r hmem]
      simp
    · exact hz hn

theorem sleep_names_count (uid today : Nat) (existing : List String) (r : Routine) (n : String) :
    (((sleepRule uid today existing r).2.map AdjInsert.habit).count n ≤ 1)
    ∧ (¬ n = "sleep_time" →
        ((sleepRule uid today existing r).2.map AdjInsert.habit).count n = 0)
    ∧ (n ∈ existing →
        ((sleepRule uid today existing r).2.map AdjInsert.habit).count n = 0) := by
  have hz : ¬ n = "sleep_time" →
      ((sleepRule uid today existing r).2.map AdjInsert.habit).count n = 0 := by
    intro hn
    apply count_eq_zero_of_all_ne
    intro x hx
    obtain ⟨a, ha, rfl⟩ := List.mem_map.mp hx
    rw [sleepRule_inserts_habit uid today existing r a ha]
    exact fun hh => hn hh.symm
  refine ⟨?_, hz, ?_⟩
  · calc ((sleepRule uid today existing r).2.map AdjInsert.habit).count n
        ≤ ((sleepRule uid today existing r).2.map AdjInsert.habit).length :=
          List.count_le_length _ _
    _ = (sleepRule uid today existing r).2.length := List.length_map _ _
    _ ≤ 1 := sleepRule_inserts_len uid today existing r
  · intro hmem
    by_cases hn : n = "sleep_time"
    · subst hn
      rw [sleepRule_skip uid today existing r hmem]
      simp
    · exact hz hn

theorem bad_names_count (uid today : Nat) (existing : List String) (r : Routine) (n : String) :
    (((badRule uid today existing r).2.map AdjInsert.habit).count n ≤ 1)
    ∧ (¬ n = "bad_habits" →
        ((badRule uid today existing r).2.map AdjInsert.habit).count n = 0)
    ∧ (n ∈ existing →
        ((badRule uid today existing r).2.map AdjInsert.habit).count n = 0) := by
  have hz : ¬ n = "bad_habits" →
      ((badRule uid today existing r).2.map AdjInsert.habit).count n = 0 := by
    intro hn
    apply count_eq_zero_of_all_ne
    intro x hx
    obtain ⟨a, ha, rfl⟩ := List.mem_map.mp hx
    rw [badRule_inserts_habit uid today existing r a ha]
    exact fun hh => hn hh.symm
  refine ⟨?_, hz, ?_⟩
  · calc ((badRule uid today existing r).2.map AdjInsert.habit).count n
        ≤ ((badRule uid today existing r).2.map AdjInsert.habit).length :=
          List.count_le_length _ _
    _ = (badRule uid today existing r).2.length := List.length_map _ _
    _ ≤ 1 := badRule_inserts_len uid today existing r
  · intro hmem
    by_cases hn : n = "bad_habits"
    · subst hn
      rw [badRule_skip uid today existing r hmem]
      simp
    · exact hz hn

theorem meal_names_count (uid today : Nat) (existing : List String) (r : Routine) (n : String) :
    (¬ n = "meal_times" →
        ((mealRule uid today existing r).2.map AdjInsert.habit).count n = 0)
    ∧ (n ∈ existing →
        ((mealRule uid today existing r).2.map AdjInsert.habit).count n = 0) := by
  have hz : ¬ n = "meal_times" →
      ((mealRule uid today existing r).2.map AdjInsert.habit).count n = 0 := by
    intro hn
    apply count_eq_zero_of_all_ne
    intro x hx
    obtain ⟨a, ha, rfl⟩ := List.mem_map.mp hx
    rw [mealRule_inserts_habit uid today existing r a ha]
    exact fun hh => hn hh.symm
  refine ⟨hz, ?_⟩
  intro hmem
  by_cases hn : n = "meal_times"
  · subst hn
    rw [mealRule_skip uid today existing r hmem]
    simp
  · exact hz hn

theorem projUpd_habit (row : HistRow) (e : ProjEntry) : (projUpd row e).habit = e.habit := by
  unfold projUpd
  split <;> rfl

theorem filter_map_projUpd (row : HistRow) (h : String) (acc : List ProjEntry) :
    (acc.map (projUpd row)).filter (fun e => e.habit == h)
      = (acc.filter (fun e => e.habit == h)).map (projUpd row) := by
  induction acc with
  | nil => rfl
  | cons a rest ih =>
      simp only [List.map_cons, List.filter_cons, projUpd_habit]
      by_cases ha : a.habit = h
      · simp [ha, ih]
      · simp [ha, ih]

theorem projStep_filter_ne (acc : List ProjEntry) (row : HistRow) (h : String)
    (hne : ¬ row.habit = h) :
    (projStep acc row).filter (fun e => e.habit == h)
      = acc.filter (fun e => e.habit == h) := by
  have hfix : ∀ e ∈ acc.filter (fun e => e.habit == h), projUpd row e = e := by
    intro e he
    have hh : e.habit = h := by simpa using (List.mem_filter.mp he).2
    unfold projUpd
    rw [if_neg (fun hc => hne (by rw [← hc]; exact hh))]
  unfold projStep
  split
  · rw [filter_map_projUpd]
    calc (acc.filter (fun e => e.habit == h)).map (projUpd row)
        = (acc.filter (fun e => e.habit == h)).map id := List.map_congr_left hfix
      _ = acc.filter (fun e => e.habit == h) := List.map_id _
  · rw [filter_map_projUpd, List.filter_append]
    have hng : (([{ habit := row.habit, start := row.prev, current := row.new,
                    trend := [] }] : List ProjEntry).filter (fun e => e.habit == h)) = [] := by
      simp [hne]
    rw [hng, List.append_nil]
    calc (acc.filter (fun e => e.habit == h)).map (projUpd row)
        = (acc.filter (fun e => e.habit == h)).map id := List.map_congr_left hfix
      _ = acc.filter (fun e => e.habit == h) := List.map_id _

theorem projStep_filter_eq (acc : List ProjEntry) (row : HistRow)
    (hlen : (acc.filter (fun e => e.habit == row.habit)).length ≤ 1) :
    (projStep acc row).filter (fun e => e.habit == row.habit)
      = projStepH (acc.filter (fun e => e.habit == row.habit)) row := by
  unfold projStep
  split
  case isTrue hany =>
    rw [filter_map_projUpd]
    obtain ⟨e, hmem, hbe⟩ := List.any_eq_true.mp hany
    have hne2 : ¬ acc.filter (fun e => e.habit == row.habit) = [] := by
      intro hnil
      have hin : e ∈ acc.filter (fun x => x.habit == row.habit) :=
        List.mem_filter.mpr ⟨hmem, hbe⟩
      rw [hnil] at hin
      exact absurd hin (List.not_mem_nil e)
    cases hfil : acc.filter (fun e => e.habit == row.habit) with
    | nil => exact absurd hfil hne2
    | cons e0 rest =>
        have hrest : rest = [] := by
          rw [hfil] at hlen
          simp only [List.length_cons] at hlen
          exact List.eq_nil_of_length_eq_zero (by omega)
        subst hrest
        have he0 : e0.habit = row.habit := by
          have hin : e0 ∈ acc.filter (fun e => e.habit == row.habit) := by
            rw [hfil]; exact List.mem_cons_self _ _
          simpa using (List.mem_filter.mp hin).2
        simp [projUpd, projStepH, he0]
  case isFalse hany =>
    have hfil : acc.filter (fun e => e.habit == row.habit) = [] := by
      rw [List.filter_eq_nil_iff]
      intro e he hpe
      exact hany (List.any_eq_true.mpr ⟨e, he, hpe⟩)
    rw [filter_map_projUpd, List.filter_append, hfil]
    simp [projUpd, projStepH]

theorem foldl_projStep_filter (rows : List HistRow) (h : String) :
    ∀ acc : List ProjEntry, (acc.filter (fun e => e.habit == h)).length ≤ 1 →
      (rows.foldl projStep acc).filter (fun e => e.habit == h)
        = (rows.filter (fun r => r.habit == h)).foldl projStepH
            (acc.filter (fun e => e.habit == h)) := by
  induction rows with
  | nil => intro acc hlen; simp
  | cons row rest ih =>
      intro acc hlen
      rw [List.foldl_cons, List.filter_cons]
      by_cases hr : row.habit = h
      · subst hr
        rw [if_pos (by simp)]
        rw [List.foldl_cons]
        have hstep := projStep_filter_eq acc row hlen
        have hlen2 : ((projStep acc row).filter
            (fun e => e.habit == row.habit)).length ≤ 1 := by
          rw [hstep]
          cases hcur : acc.filter (fun e => e.habit == row.habit) <;> simp [projStepH]
        rw [ih (projStep acc row) hlen2, hstep]
      · rw [if_neg (by simpa using hr)]
        have hstep := projStep_filter_ne acc row h hr
        have hlen2 : ((projStep acc row).filter (fun e => e.habit == h)).length ≤ 1 := by
          rw [hstep]; exact hlen
        rw [ih (projStep acc row) hlen2, hstep]

theorem foldl_projStepH_singleton (ll : List HistRow) :
    ∀ e : ProjEntry, ∃ tr, ll.foldl projStepH [e]
      = [{ habit := e.habit, start := e.start,
           current := ((ll.getLast?).map HistRow.new).getD e.current, trend := tr }] := by
  induction ll with
  | nil =>
      intro e
      refine ⟨e.trend, ?_⟩
      cases e
      simp
  | cons r rest ih =>
      intro e
      rw [List.foldl_cons]
      obtain ⟨tr, htr⟩ := ih { e with current := r.new, trend := e.trend ++ [(r.date, r.new)] }
      refine ⟨tr, ?_⟩
      have hstep : projStepH [e] r
          = [{ e with current := r.new, trend := e.trend ++ [(r.date, r.new)] }] := rfl
      rw [hstep, htr]
      cases rest with
      | nil => simp
      | cons r2 rest2 =>
          have hsome : ((r2 :: rest2).getLast?).isSome := by
            rw [List.getLast?_isSome]
            simp
          obtain ⟨x, hx⟩ := Option.isSome_iff_exists.mp hsome
          simp [List.getLast?_cons_cons, hx]

theorem progress_fold_rejected (rows : List Adjustment) :
    ∀ pd : ProgressData, (rows.foldl progressStep pd).rejected
      = pd.rejected ++ (rows.filter
          (fun a => !(a.status == "accepted") && !(a.status == "pending"))).map progressEntryOf := by
  induction rows with
  | nil => intro pd; simp
  | cons a rest ih =>
      intro pd
      rw [List.foldl_cons, ih]
      by_cases h1 : a.status = "accepted"
      · simp [progressStep, h1, List.filter_cons]
      · by_cases h2 : a.status = "pending"
        · simp [progressStep, h1, h2, List.filter_cons]
        · simp [progressStep, h1, h2, List.filter_cons, List.append_assoc]

/-! Claim theorems. -/

/-- C8: for a user with no routine snapshot, `adjust_habits` returns the
explicit no-data message (with no inserts), and that result is distinct from
every `adjustments` result, in particular from an empty proposal list. -/
theorem adjust_habits_no_data (uid today : Nat) (existing : List String) :
    adjustHabits uid today existing none = (AdjustResult.noData, [])
    ∧ ∀ props : List Proposal,
        (AdjustResult.noData == AdjustResult.adjustments props) = false := by
  refine ⟨rfl, fun props => ?_⟩
  rfl

/-- C4: `update_habit` returns the InvalidStatus client error with the state
untouched exactly when the requested status is neither "accepted" nor
"rejected". -/
theorem updateHabit_invalid_status_iff (id today : Nat) (status : String) (db : DB) :
    updateHabit id status today db = (UpdateResult.invalidStatus, db)
      ↔ (¬ status = "accepted" ∧ ¬ status = "rejected") := by
  constructor
  · intro h
    by_cases hc : ¬ status = "accepted" ∧ ¬ status = "rejected"
    · exact hc
    · exfalso
      unfold updateHabit at h
      rw [if_neg hc] at h
      cases hh : (db.habit_adjustments.filter (fun a => a.adjustment_id == id)).head? with
      | none => rw [hh] at h; simp at h
      | some a => rw [hh] at h; simp at h
  · intro h
    unfold updateHabit
    rw [if_pos h]

/-- C2 counterexample: with no pending habits and `meal_times = []` (an empty
but well-typed list), the meal rule still fires: the call returns an aggregate
"meal_times" proposal (with the empty transformed list) even though the
meal-times sequence is empty, refuting "fires only if ... non-empty". -/
theorem meal_rule_fires_on_empty_list :
    adjustHabits 1 0 [] (some emptyMealRoutine) =
      (AdjustResult.adjustments
        [{ habit := "meal_times", suggested_change := Suggested.list [] }], []) := by
  decide

/-- C1 counterexample: starting from an empty pending set (which trivially has
at most one pending record per habit name), one engine call on a routine with
two meal times inserts two pending records that share the habit name
"meal_times". -/
theorem meal_rule_breaks_pending_uniqueness :
    ((adjustHabits 1 0 [] (some twoMealRoutine)).2.map AdjInsert.habit).count "meal_times" = 2 := by
  decide

/-- C5: when the sleep hour exceeds 1 and neither habit is pending, the
wake-up proposal is `max(6, wakeHour-1)` with the wake minute (reason "Gradual
wake-up shift") and the sleep proposal is `max(22, sleepHour-1)` with the
sleep minute (reason "Improve sleep quality"); the two clamps are applied
independently. -/
theorem wake_sleep_proposals (uid today : Nat) (existing : List String) (r : Routine)
    (hs : 1 < r.sleep_time.hour)
    (hw : ¬ "wake_up_time" ∈ existing) (hsl : ¬ "sleep_time" ∈ existing) :
    adjustHabits uid today existing (some r) =
      (AdjustResult.adjustments
        ({ habit := "wake_up_time",
           suggested_change :=
             Suggested.str (fmtTime (max 6 (r.wake_up_time.hour - 1)) r.wake_up_time.minute) } ::
         { habit := "sleep_time",
           suggested_change :=
             Suggested.str (fmtTime (max 22 (r.sleep_time.hour - 1)) r.sleep_time.minute) } ::
         ((mealRule uid today existing r).1 ++ (badRule uid today existing r).1)),
       { user_id := uid, applied_on := today, current_value := timeStr r.wake_up_time,
         next_suggested_value := fmtTime (max 6 (r.wake_up_time.hour - 1)) r.wake_up_time.minute,
         reason := "Gradual wake-up shift", status := "pending", habit := "wake_up_time" } ::
       { user_id := uid, applied_on := today, current_value := timeStr r.sleep_time,
         next_suggested_value := fmtTime (max 22 (r.sleep_time.hour - 1)) r.sleep_time.minute,
         reason := "Improve sleep quality", status := "pending", habit := "sleep_time" } ::
       ((mealRule uid today existing r).2 ++ (badRule uid today existing r).2)) := by
  rw [adjustHabits_some]
  unfold wakeRule sleepRule
  rw [if_pos ⟨hw, hs⟩, if_pos ⟨hsl, hs⟩]
  rfl

/-- C5 witness: for sleep 03:15 and wake 07:30 (spec example, sleepHour = 3,
wakeHour = 7) the suggestions are 06:30 and 22:15 — both clamps independent. -/
theorem wake_sleep_proposals_witness :
    adjustHabits 1 0 [] (some wakeSleepDemoRoutine) =
      (AdjustResult.adjustments
        [{ habit := "wake_up_time", suggested_change := Suggested.str "06:30" },
         { habit := "sleep_time", suggested_change := Suggested.str "22:15" }],
       [{ user_id := 1, applied_on := 0, current_value := "07:30",
          next_suggested_value := "06:30", reason := "Gradual wake-up shift",
          status := "pending", habit := "wake_up_time" },
        { user_id := 1, applied_on := 0, current_value := "03:15",
          next_suggested_value := "22:15", reason := "Improve sleep quality",
          status := "pending", habit := "sleep_time" }]) := by
  have h := wake_sleep_proposals 1 0 [] wakeSleepDemoRoutine
    (by decide) (by decide) (by decide)
  exact h

/-- C6: when the sleep hour is in [0,1], the engine produces no wake-up and no
sleep-time proposal and inserts no such pending record, whatever the other
routine fields and the pending set are. -/
theorem no_wake_sleep_when_sleep_hour_le_one (uid today : Nat) (existing : List String)
    (r : Routine) (h : r.sleep_time.hour ≤ 1) :
    (∀ ps, (adjustHabits uid today existing (some r)).1 = AdjustResult.adjustments ps →
        ∀ p ∈ ps, ¬ p.habit = "wake_up_time" ∧ ¬ p.habit = "sleep_time")
    ∧ ∀ a ∈ (adjustHabits uid today existing (some r)).2,
        ¬ a.habit = "wake_up_time" ∧ ¬ a.habit = "sleep_time" := by
  have hw : wakeRule uid today existing r = ([], []) := by
    unfold wakeRule
    rw [if_neg (fun hc => absurd hc.2 (not_lt.mpr h))]
  have hs : sleepRule uid today existing r = ([], []) := by
    unfold sleepRule
    rw [if_neg (fun hc => absurd hc.2 (not_lt.mpr h))]
  constructor
  · intro ps hps p hp
    rw [adjustHabits_some, hw, hs] at hps
    simp only [Prod.fst, AdjustResult.adjustments.injEq, List.nil_append] at hps
    rw [← hps] at hp
    rcases List.mem_append.mp hp with hm | hb
    · have hhab := mealRule_props_habit uid today existing r p hm
      constructor <;> (intro hx; rw [hx] at hhab; exact absurd hhab (by decide))
    · have hhab := badRule_props_habit uid today existing r p hb
      constructor <;> (intro hx; rw [hx] at hhab; exact absurd hhab (by decide))
  · intro a ha
    replace ha : a ∈ (wakeRule uid today existing r).2 ++
        ((sleepRule uid today existing r).2 ++
          ((mealRule uid today existing r).2 ++ (badRule uid today existing r).2)) := ha
    rw [hw, hs] at ha
    simp only [List.nil_append] at ha
    rcases List.mem_append.mp ha with hm | hb
    · have hhab := mealRule_inserts_habit uid today existing r a hm
      constructor <;> (intro hx; rw [hx] at hhab; exact absurd hhab (by decide))
    · have hhab := badRule_inserts_habit uid today existing r a hb
      constructor <;> (intro hx; rw [hx] at hhab; exact absurd hhab (by decide))

/-- C6 witness: for a routine with sleep hour 1 (01:45), a pending bad-habit
entry, meal times and bad habits present, no inserted record names the wake or
sleep habit. -/
theorem no_wake_sleep_when_sleep_hour_le_one_witness :
    ((adjustHabits 1 0 ["bad_habits"] (some earlySleepRoutine)).2.map
        AdjInsert.habit).count "wake_up_time" = 0 := by
  have h := no_wake_sleep_when_sleep_hour_le_one 1 0 ["bad_habits"] earlySleepRoutine (by decide)
  refine List.count_eq_zero.mpr ?_
  intro hmem
  obtain ⟨a, ha, hh⟩ := List.mem_map.mp hmem
  exact (h.2 a ha).1 hh

/-- C7: the bad-habit rule fires exactly when "bad_habits" has no pending
entry and the bad-habits sequence is non-empty; its proposal drops exactly the
last element, and the persisted row carries reason "Reduce negative habits". -/
theorem bad_habit_rule_spec (uid today : Nat) (existing : List String) (r : Routine)
    (l : List String) (hbh : r.bad_habits = some l) :
    (∀ ps, (adjustHabits uid today existing (some r)).1 = AdjustResult.adjustments ps →
        (((∃ p ∈ ps, p.habit = "bad_habits") ↔ (¬ "bad_habits" ∈ existing ∧ ¬ l = []))
         ∧ (¬ "bad_habits" ∈ existing → ¬ l = [] →
             ({ habit := "bad_habits", suggested_change := Suggested.list l.dropLast } : Proposal)
               ∈ ps)))
    ∧ (¬ "bad_habits" ∈ existing → ¬ l = [] →
        ({ user_id := uid, applied_on := today, current_value := pyStrList l,
           next_suggested_value := pyStrList l.dropLast, reason := "Reduce negative habits",
           status := "pending", habit := "bad_habits" } : AdjInsert)
          ∈ (adjustHabits uid today existing (some r)).2) := by
  have hbmemP : ∀ hmem : ¬ "bad_habits" ∈ existing, ∀ hne : ¬ l = [],
      ({ habit := "bad_habits", suggested_change := Suggested.list l.dropLast } : Proposal)
        ∈ (badRule uid today existing r).1 := by
    intro hmem hne
    rw [badRule_some uid today existing r l hbh, if_pos ⟨hmem, hne⟩]
    exact List.mem_singleton.mpr rfl
  constructor
  · intro ps hps
    replace hps : AdjustResult.adjustments
        ((wakeRule uid today existing r).1 ++ ((sleepRule uid today existing r).1 ++
          ((mealRule uid today existing r).1 ++ (badRule uid today existing r).1)))
        = AdjustResult.adjustments ps := hps
    injection hps with hps
    subst hps
    constructor
    · constructor
      · rintro ⟨p, hp, hhab⟩
        rcases List.mem_append.mp hp with h1 | h23
        · have hx := wakeRule_props_habit uid today existing r p h1
          rw [hhab] at hx; exact absurd hx (by decide)
        rcases List.mem_append.mp h23 with h2 | h34
        · have hx := sleepRule_props_habit uid today existing r p h2
          rw [hhab] at hx; exact absurd hx (by decide)
        rcases List.mem_append.mp h34 with h3 | h4
        · have hx := mealRule_props_habit uid today existing r p h3
          rw [hhab] at hx; exact absurd hx (by decide)
        · by_cases hc : ¬ "bad_habits" ∈ existing ∧ ¬ l = []
          · exact hc
          · exfalso
            rw [badRule_some uid today existing r l hbh, if_neg hc] at h4
            exact absurd h4 (List.not_mem_nil p)
      · rintro ⟨hmem, hne⟩
        exact ⟨_, List.mem_append.mpr (Or.inr (List.mem_append.mpr (Or.inr
          (List.mem_append.mpr (Or.inr (hbmemP hmem hne)))))), rfl⟩
    · intro hmem hne
      exact List.mem_append.mpr (Or.inr (List.mem_append.mpr (Or.inr
        (List.mem_append.mpr (Or.inr (hbmemP hmem hne))))))
  · intro hmem hne
    have hb : ({ user_id := uid, applied_on := today, current_value := pyStrList l,
                 next_suggested_value := pyStrList l.dropLast,
                 reason := "Reduce negative habits",
                 status := "pending", habit := "bad_habits" } : AdjInsert)
          ∈ (badRule uid today existing r).2 := by
      rw [badRule_some uid today existing r l hbh, if_pos ⟨hmem, hne⟩]
      exact List.mem_singleton.mpr rfl
    exact List.mem_append.mpr (Or.inr (List.mem_append.mpr (Or.inr
      (List.mem_append.mpr (Or.inr hb)))))

/-- C7 witness: for bad_habits = [coffee, sugar, lateNight] with nothing
pending, the proposal is [coffee, sugar] and the pending row is persisted with
reason "Reduce negative habits". -/
theorem bad_habit_rule_spec_witness :
    ({ habit := "bad_habits", suggested_change := Suggested.list ["coffee", "sugar"] } : Proposal)
        ∈ [({ habit := "bad_habits", suggested_change := Suggested.list ["coffee", "sugar"] } : Proposal)]
    ∧ ({ user_id := 1, applied_on := 0, current_value := pyStrList ["coffee", "sugar", "lateNight"],
         next_suggested_value := pyStrList ["coffee", "sugar"], reason := "Reduce negative habits",
         status := "pending", habit := "bad_habits" } : AdjInsert)
        ∈ (adjustHabits 1 0 [] (some badDemoRoutine)).2 := by
  have h := bad_habit_rule_spec 1 0 [] badDemoRoutine ["coffee", "sugar", "lateNight"] rfl
  constructor
  · exact (h.1 [({ habit := "bad_habits",
                   suggested_change := Suggested.list ["coffee", "sugar"] } : Proposal)]
      (by decide)).2 (by decide) (by decide)
  · exact h.2 (by decide) (by decide)

/-- C2 (amended): the meal rule fires exactly when "meal_times" has no pending
entry and the column is a list — the code does not require non-emptiness; when
it fires, the aggregate proposal is the whole transformed sequence, exactly
one pending row per meal time is persisted with reason "Optimize meal timing",
and each "HH:MM" is mapped to hour max(6, H-1) with the same minute. -/
theorem meal_rule_spec_amended (uid today : Nat) (existing : List String) (r : Routine)
    (ts : List String) (hm : r.meal_times = some ts) :
    (∀ ps, (adjustHabits uid today existing (some r)).1 = AdjustResult.adjustments ps →
        (((∃ p ∈ ps, p.habit = "meal_times") ↔ ¬ "meal_times" ∈ existing)
         ∧ (¬ "meal_times" ∈ existing →
             ({ habit := "meal_times",
                suggested_change := Suggested.list (ts.map mealNew) } : Proposal) ∈ ps)))
    ∧ (¬ "meal_times" ∈ existing →
        (adjustHabits uid today existing (some r)).2.filter (fun a => a.habit == "meal_times")
          = ts.map (mealRow uid today))
    ∧ (∀ hh mm t, parseHM t = (hh, mm) → mealNew t = fmtTime (max 6 (hh - 1)) mm) := by
  have hmmemP : ∀ hmem : ¬ "meal_times" ∈ existing,
      ({ habit := "meal_times",
         suggested_change := Suggested.list (ts.map mealNew) } : Proposal)
        ∈ (mealRule uid today existing r).1 := by
    intro hmem
    rw [mealRule_some uid today existing r ts hm, if_pos hmem]
    exact List.mem_singleton.mpr rfl
  refine ⟨?_, ?_, ?_⟩
  · intro ps hps
    replace hps : AdjustResult.adjustments
        ((wakeRule uid today existing r).1 ++ ((sleepRule uid today existing r).1 ++
          ((mealRule uid today existing r).1 ++ (badRule uid today existing r).1)))
        = AdjustResult.adjustments ps := hps
    injection hps with hps
    subst hps
    constructor
    · constructor
      · rintro ⟨p, hp, hhab⟩
        by_cases hmem : "meal_times" ∈ existing
        · exfalso
          rcases List.mem_append.mp hp with h1 | h23
          · have hx := wakeRule_props_habit uid today existing r p h1
            rw [hhab] at hx; exact absurd hx (by decide)
          rcases List.mem_append.mp h23 with h2 | h34
          · have hx := sleepRule_props_habit uid today existing r p h2
            rw [hhab] at hx; exact absurd hx (by decide)
          rcases List.mem_append.mp h34 with h3 | h4
          · rw [mealRule_skip uid today existing r hmem] at h3
            exact absurd h3 (List.not_mem_nil p)
          · have hx := badRule_props_habit uid today existing r p h4
            rw [hhab] at hx; exact absurd hx (by decide)
        · exact hmem
      · intro hmem
        exact ⟨_, List.mem_append.mpr (Or.inr (List.mem_append.mpr (Or.inr
          (List.mem_append.mpr (Or.inl (hmmemP hmem)))))), rfl⟩
    · intro hmem
      exact List.mem_append.mpr (Or.inr (List.mem_append.mpr (Or.inr
        (List.mem_append.mpr (Or.inl (hmmemP hmem))))))
  · intro hmem
    have hsplit : (adjustHabits uid today existing (some r)).2
        = (wakeRule uid today existing r).2 ++ ((sleepRule uid today existing r).2 ++
            ((mealRule uid today existing r).2 ++ (badRule uid today existing r).2)) := rfl
    rw [hsplit, List.filter_append, List.filter_append, List.filter_append]
    have hw0 : (wakeRule uid today existing r).2.filter (fun a => a.habit == "meal_times") = [] :=
      List.filter_eq_nil_iff.mpr
        (fun a ha => by simp [wakeRule_inserts_habit uid today existing r a ha])
    have hs0 : (sleepRule uid today existing r).2.filter (fun a => a.habit == "meal_times") = [] :=
      List.filter_eq_nil_iff.mpr
        (fun a ha => by simp [sleepRule_inserts_habit uid today existing r a ha])
    have hb0 : (badRule uid today existing r).2.filter (fun a => a.habit == "meal_times") = [] :=
      List.filter_eq_nil_iff.mpr
        (fun a ha => by simp [badRule_inserts_habit uid today existing r a ha])
    have hmfull : (mealRule uid today existing r).2.filter (fun a => a.habit == "meal_times")
        = (mealRule uid today existing r).2 :=
      List.filter_eq_self.mpr
        (fun a ha => by simp [mealRule_inserts_habit uid today existing r a ha])
    rw [hw0, hs0, hb0, hmfull, mealRule_some uid today existing r ts hm, if_pos hmem]
    simp
  · intro hh mm t hp
    unfold mealNew
    rw [hp]

/-- C2 witness: for meal_times = [07:00, 12:30, 19:00] with nothing pending,
the aggregate proposal is [06:00, 11:30, 18:00] and exactly three pending
rows are persisted, one per meal time. -/
theorem meal_rule_spec_amended_witness :
    ({ habit := "meal_times", suggested_change := Suggested.list ["06:00", "11:30", "18:00"] } : Proposal)
        ∈ [({ habit := "meal_times", suggested_change := Suggested.list ["06:00", "11:30", "18:00"] } : Proposal)]
    ∧ (adjustHabits 1 0 [] (some mealDemoRoutine)).2.filter (fun a => a.habit == "meal_times")
        = [{ user_id := 1, applied_on := 0, current_value := "07:00", next_suggested_value := "06:00",
             reason := "Optimize meal timing", status := "pending", habit := "meal_times" },
           { user_id := 1, applied_on := 0, current_value := "12:30", next_suggested_value := "11:30",
             reason := "Optimize meal timing", status := "pending", habit := "meal_times" },
           { user_id := 1, applied_on := 0, current_value := "19:00", next_suggested_value := "18:00",
             reason := "Optimize meal timing", status := "pending", habit := "meal_times" }] := by
  have h := meal_rule_spec_amended 1 0 [] mealDemoRoutine ["07:00", "12:30", "19:00"] rfl
  constructor
  · exact (h.1 [({ habit := "meal_times",
                   suggested_change :=
                     Suggested.list (["07:00", "12:30", "19:00"].map mealNew) } : Proposal)]
      (by decide)).2 (by decide)
  · exact (h.2.1 (by decide)).trans (by decide)

/-- C3: for a valid resolution status, `update_habit` returns NotFound with
the state unchanged when no adjustment carries the id; otherwise, in one
atomic state transition, it appends exactly one history row carrying the
resolution status and the stored previous/new values and deletes the pending
row. -/
theorem updateHabit_resolution (id today : Nat) (status : String) (db : DB)
    (hs : status = "accepted" ∨ status = "rejected") :
    ((∀ a ∈ db.habit_adjustments, ¬ a.adjustment_id = id) →
        updateHabit id status today db = (UpdateResult.notFound, db))
    ∧ ∀ a, (db.habit_adjustments.filter (fun x => x.adjustment_id == id)).head? = some a →
        updateHabit id status today db =
          (UpdateResult.ok ("✅ Habit adjustment " ++ toString id ++ " marked as "
              ++ status ++ " and moved to history."),
           { habit_adjustments :=
               db.habit_adjustments.filter (fun x => !(x.adjustment_id == id)),
             habit_history := db.habit_history ++
               [{ user_id := a.user_id, habit := a.habit, previous_value := a.current_value,
                  new_value := a.next_suggested_value, status := status,
                  date_applied := today }] }) := by
  have hval : ¬ (¬ status = "accepted" ∧ ¬ status = "rejected") := by
    rcases hs with h | h <;> simp [h]
  constructor
  · intro hnone
    have hfil : db.habit_adjustments.filter (fun x => x.adjustment_id == id) = [] :=
      List.filter_eq_nil_iff.mpr (fun a ha => by simp [hnone a ha])
    unfold updateHabit
    rw [if_neg hval, hfil]
    rfl
  · intro a ha
    unfold updateHabit
    rw [if_neg hval, ha]
    rcases hs with h | h <;> subst h <;> rfl

/-- C3 witness: resolving adjustment 5 of a one-row database as "accepted"
yields the success message, an emptied pending table, and exactly one
accepted history row with the stored values. -/
theorem updateHabit_resolution_witness :
    updateHabit 5 "accepted" 3 demoDB =
      (UpdateResult.ok "✅ Habit adjustment 5 marked as accepted and moved to history.",
       { habit_adjustments := [],
         habit_history := [{ user_id := 1, habit := "wake_up_time",
                             previous_value := "07:30", new_value := "06:30",
                             status := "accepted", date_applied := 3 }] }) := by
  have h := (updateHabit_resolution 5 3 "accepted" demoDB (Or.inl rfl)).2
    demoAdjustment (by decide)
  exact h

/-- C10: `habit_progress` places every adjustment whose status is neither
"accepted" nor "pending" into the rejected catch-all bucket. -/
theorem progress_rejected_catch_all (rows : List Adjustment) (a : Adjustment)
    (ha : a ∈ rows) (h1 : ¬ a.status = "accepted") (h2 : ¬ a.status = "pending") :
    habit_progress rows = ProgressResult.data (rows.foldl progressStep ⟨[], [], []⟩)
    ∧ progressEntryOf a ∈ (rows.foldl progressStep ⟨[], [], []⟩).rejected := by
  have hne : ¬ rows = [] := by
    rintro rfl; exact absurd ha (List.not_mem_nil a)
  constructor
  · unfold habit_progress
    rw [if_neg (by simpa using hne)]
  · rw [progress_fold_rejected rows ⟨[], [], []⟩]
    refine List.mem_append.mpr (Or.inr (List.mem_map.mpr ⟨a, List.mem_filter.mpr ⟨ha, ?_⟩, rfl⟩))
    simp [h1, h2]

/-- C10 witness: an adjustment with status "maybe" is reported in the
rejected bucket. -/
theorem progress_rejected_catch_all_witness :
    habit_progress [weirdAdjustment] =
      ProgressResult.data
        { accepted := [], pending := [],
          rejected := [{ habit := "wake_up_time", previous_value := "07:30",
                         new_value := "06:30", date := "2" }] }
    ∧ progressEntryOf weirdAdjustment ∈
        [({ habit := "wake_up_time", previous_value := "07:30",
            new_value := "06:30", date := "2" } : ProgressEntry)] := by
  have h := progress_rejected_catch_all [weirdAdjustment] weirdAdjustment
    (List.mem_singleton.mpr rfl) (by decide) (by decide)
  exact h

/-- C1 (amended): the engine does check the pending snapshot and never adds a
record for a habit name that is already pending; for every habit name other
than "meal_times" a single call starting from a duplicate-free pending set
leaves at most one pending record per habit name — but the meal rule inserts
one pending row per meal time, all named "meal_times", so for that one name a
single call can create several pending records. -/
theorem pending_unique_per_habit_amended (uid today : Nat) (existing : List String)
    (r : Routine) (hnd : existing.Nodup) :
    (∀ n, ¬ n = "meal_times" →
        (existing ++
          (adjustHabits uid today existing (some r)).2.map AdjInsert.habit).count n ≤ 1)
    ∧ ∀ m ∈ existing,
        ((adjustHabits uid today existing (some r)).2.map AdjInsert.habit).count m = 0 := by
  have hnames : (adjustHabits uid today existing (some r)).2.map AdjInsert.habit
      = (wakeRule uid today existing r).2.map AdjInsert.habit ++
        ((sleepRule uid today existing r).2.map AdjInsert.habit ++
          ((mealRule uid today existing r).2.map AdjInsert.habit ++
            (badRule uid today existing r).2.map AdjInsert.habit)) := by
    rw [adjustHabits_some]
    simp [List.map_append]
  constructor
  · intro n hn
    rw [hnames, List.count_append, List.count_append, List.count_append, List.count_append]
    rw [(meal_names_count uid today existing r n).1 hn]
    by_cases h1 : n ∈ existing
    · have he : existing.count n ≤ 1 := List.nodup_iff_count_le_one.mp hnd n
      rw [(wake_names_count uid today existing r n).2.2 h1,
          (sleep_names_count uid today existing r n).2.2 h1,
          (bad_names_count uid today existing r n).2.2 h1]
      omega
    · have he : existing.count n = 0 := List.count_eq_zero.mpr h1
      rw [he]
      by_cases hw : n = "wake_up_time"
      · have hs0 := (sleep_names_count uid today existing r n).2.1 (by rw [hw]; decide)
        have hb0 := (bad_names_count uid today existing r n).2.1 (by rw [hw]; decide)
        have hw1 := (wake_names_count uid today existing r n).1
        omega
      · have hw0 := (wake_names_count uid today existing r n).2.1 hw
        by_cases hsl : n = "sleep_time"
        · have hb0 := (bad_names_count uid today existing r n).2.1 (by rw [hsl]; decide)
          have hs1 := (sleep_names_count uid today existing r n).1
          omega
        · have hs0 := (sleep_names_count uid today existing r n).2.1 hsl
          have hb1 := (bad_names_count uid today existing r n).1
          omega
  · intro m hmem
    rw [hnames, List.count_append, List.count_append, List.count_append]
    rw [(wake_names_count uid today existing r m).2.2 hmem,
        (sleep_names_count uid today existing r m).2.2 hmem,
        (bad_names_count uid today existing r m).2.2 hmem,
        (meal_names_count uid today existing r m).2 hmem]

/-- C1 witness: with "wake_up_time" already pending (a duplicate-free pending
set) and a two-meal routine, the name "wake_up_time" still occurs at most once
among the pending names after the call. -/
theorem pending_unique_per_habit_amended_witness :
    (["wake_up_time"] ++
      (adjustHabits 1 0 ["wake_up_time"] (some twoMealRoutine)).2.map
        AdjInsert.habit).count "wake_up_time" ≤ 1 :=
  (pending_unique_per_habit_amended 1 0 ["wake_up_time"] twoMealRoutine (by decide)).1
    "wake_up_time" (by decide)

/-- C9: `habit_projections` groups the accepted history rows (fetched in
date-ascending order) by habit and emits exactly one sentence per habit, of
the form "could improve from START to CURRENT", where START is the previous
value of the habit's first row and CURRENT the new value of its last row in
that date-ascending order — a restatement of the most recent value, with no
extrapolation. -/
theorem habit_projections_spec (rows : List HistRow)
    (hsort : rows.Sorted (fun a b => a.date ≤ b.date)) (hne : ¬ rows = []) :
    habit_projections rows
      = ProjResult.insights ((projEntries rows).map
          (fun e => projSentence e.habit e.start e.current))
    ∧ ∀ h : String,
        (((projEntries rows).filter (fun e => e.habit == h)).length
            = if (rows.filter (fun r => r.habit == h)).isEmpty then 0 else 1)
        ∧ ∀ e ∈ projEntries rows, e.habit = h →
            ((rows.filter (fun r => r.habit == h)).head?).map HistRow.prev = some e.start
            ∧ ((rows.filter (fun r => r.habit == h)).getLast?).map HistRow.new
                = some e.current := by
  constructor
  · unfold habit_projections
    rw [if_neg (by simpa using hne)]
  · intro h
    have hfil : (projEntries rows).filter (fun e => e.habit == h)
        = (rows.filter (fun r => r.habit == h)).foldl projStepH [] := by
      have hbase := foldl_projStep_filter rows h [] (by simp)
      simpa [projEntries] using hbase
    constructor
    · rw [hfil]
      cases hc : rows.filter (fun r => r.habit == h) with
      | nil => simp
      | cons r0 rest =>
          rw [List.foldl_cons]
          have hinit : projStepH [] r0
              = [{ habit := r0.habit, start := r0.prev, current := r0.new,
                   trend := [(r0.date, r0.new)] }] := rfl
          rw [hinit]
          obtain ⟨tr, htr⟩ := foldl_projStepH_singleton rest
            { habit := r0.habit, start := r0.prev, current := r0.new,
              trend := [(r0.date, r0.new)] }
          rw [htr]
          simp
    · intro e hmem hhab
      have hmemf : e ∈ (projEntries rows).filter (fun x => x.habit == h) :=
        List.mem_filter.mpr ⟨hmem, by simpa using hhab⟩
      rw [hfil] at hmemf
      cases hc : rows.filter (fun r => r.habit == h) with
      | nil =>
          rw [hc] at hmemf
          exact absurd hmemf (List.not_mem_nil e)
      | cons r0 rest =>
          rw [hc, List.foldl_cons] at hmemf
          obtain ⟨tr, htr⟩ := foldl_projStepH_singleton rest
            { habit := r0.habit, start := r0.prev, current := r0.new,
              trend := [(r0.date, r0.new)] }
          rw [show projStepH [] r0
              = [{ habit := r0.habit, start := r0.prev, current := r0.new,
                   trend := [(r0.date, r0.new)] }] from rfl, htr] at hmemf
          have he := List.mem_singleton.mp hmemf
          constructor
          · rw [he]
            simp
          · rw [he]
            cases hrest : rest with
            | nil => simp
            | cons r1 rest1 =>
                have hsome : ((r1 :: rest1).getLast?).isSome := by
                  rw [List.getLast?_isSome]
                  simp
                obtain ⟨x, hx⟩ := Option.isSome_iff_exists.mp hsome
                simp [List.getLast?_cons_cons, hx]

/-- C9 witness: for a three-row accepted history over two habits (dates
ascending), exactly one sentence per habit is produced; the wake sentence runs
from the first row's previous value 07:30 to the last row's new value 06:00. -/
theorem habit_projections_spec_witness :
    habit_projections demoHistRows
      = ProjResult.insights
          [projSentence "wake_up_time" "07:30" "06:00",
           projSentence "sleep_time" "23:30" "22:30"]
    ∧ ((projEntries demoHistRows).filter (fun e => e.habit == "wake_up_time")).length = 1 := by
  have h := habit_projections_spec demoHistRows (by decide) (by decide)
  constructor
  · exact h.1.trans (by decide)
  · exact ((h.2 "wake_up_time").1).trans (by decide)

end SoloLeveling
